import Mathlib

/-!
# Verification of the koukku update pipeline (`src/exec.rs`)

Shallow embedding of the update executor of the koukku webhook server.
Subprocess invocation is modelled by an environment oracle `Env.exec`
mapping a fully-built command (program, arguments, working directory,
stdin disposition) to its outcome (launch failure or a captured
`Output`).  Every embedded function returns the ordered list of commands
it handed to the oracle (the invocation trace) together with its
`Except Error` result, mirroring the `Result`-threading of the Rust
source (`try!`).
-/

namespace Koukku

/-- A filesystem path as handed to `std::process::Command`: either valid
UTF-8 (`Path::to_str` succeeds) or not. -/
inductive RPath where
  | utf8 (s : String)
  | nonUtf8 (bytes : List Nat)
deriving DecidableEq, Repr

/-- `Path::to_str`. -/
def RPath.toStr : RPath → Option String
  | .utf8 s => some s
  | .nonUtf8 _ => none

/-- `path_str` (src/exec.rs:107-109): render a path for logging,
falling back to a placeholder when it is not valid UTF-8. -/
def path_str (path : RPath) : String :=
  (path.toStr).getD "[unprintable path]"

/-- Whether a path string begins with the Unix separator (absolute). -/
def startsWithSlash (s : String) : Bool :=
  match s.data with
  | [] => false
  | c :: _ => c = '/'

/-- Whether a path string ends with the Unix separator. -/
def endsWithSlash (s : String) : Bool :=
  match s.data.getLast? with
  | some c => c = '/'
  | none => false

/-- `Path::new(base).join(child)` for Unix paths given as strings: an
absolute `child` replaces `base`; otherwise `child` is appended with a
separator unless `base` already ends in one or is empty. -/
def pathJoin (base child : String) : String :=
  if startsWithSlash child then child
  else if base = "" then child
  else if endsWithSlash base then base ++ child
  else base ++ "/" ++ child

/-- One fully-built subprocess invocation: program, argument list,
working directory (`none` = inherited), and whether stdin is attached
to the null device. -/
structure Cmd where
  program : String
  args : List String
  cwd : Option RPath
  stdinNull : Bool
deriving DecidableEq, Repr

/-- `std::process::Output`: exit code (`status = 0` is success; a
signal-terminated child is modelled as a nonzero code) and the captured
stdout/stderr byte streams. -/
structure Output where
  status : Int
  stdout : List Nat
  stderr : List Nat
deriving DecidableEq, Repr

/-- `Display` for `ExitStatus` on a code exit. -/
def statusDisplay (status : Int) : String :=
  "exit status: " ++ toString status

/-- Modelled from the spec: the error type of the missing `error.rs`
module.  §7 lists the application-level kinds `InvalidRepository`,
`InvalidPath`, `CommandFailed` (built via `Error::app(reason, msg)`)
plus a wrapped I/O launch failure (`Error::from(io)`). -/
inductive Reason where
  | InvalidRepository
  | InvalidPath
  | CommandFailed
deriving DecidableEq, Repr

/-- Modelled from the spec: an error is either an application condition
with a reason and message, or a wrapped I/O (launch) failure. -/
inductive Error where
  | app (reason : Reason) (msg : String)
  | fromIo (msg : String)
deriving DecidableEq, Repr

/-- Outcome of handing a command to the operating system: the child
could not be launched at all, or it ran to completion with an
`Output`. -/
inductive ExecOutcome where
  | launchFail (msg : String)
  | ran (out : Output)
deriving DecidableEq, Repr

/-- The world one update runs against: what each subprocess invocation
returns, and which paths exist on disk (sampled once per update, as the
source does). -/
structure Env where
  exec : Cmd → ExecOutcome
  pathExists : RPath → Bool

/-- Result of one embedded step: the trace of commands invoked, in
order, and the `Result` value. -/
abbrev Step (α : Type) := List Cmd × Except Error α

/-- Sequencing of steps: `try!` plus trace concatenation.  An error
discards the continuation, so no later command is invoked. -/
def bindStep {α β : Type} (x : Step α) (f : α → Step β) : Step β :=
  match x with
  | (t, .error e) => (t, .error e)
  | (t, .ok a) =>
    match f a with
    | (t2, r) => (t ++ t2, r)

/-- Valid UTF-8 continuation byte. -/
def isCont (b : Nat) : Bool := 128 ≤ b && b ≤ 191

/-- Decode a byte list as UTF-8 (the semantics of `str::from_utf8`):
rejects overlong encodings, surrogates and code points above
`0x10FFFF`. -/
def utf8DecodeChars : List Nat → Option (List Char)
  | [] => some []
  | b0 :: rest =>
    if b0 ≤ 0x7F then
      (utf8DecodeChars rest).map (fun cs => Char.ofNat b0 :: cs)
    else if b0 < 0xC2 then none
    else if b0 ≤ 0xDF then
      match rest with
      | b1 :: rest2 =>
        if isCont b1 then
          (utf8DecodeChars rest2).map
            (fun cs => Char.ofNat ((b0 - 0xC0) * 64 + (b1 - 0x80)) :: cs)
        else none
      | [] => none
    else if b0 ≤ 0xEF then
      match rest with
      | b1 :: b2 :: rest3 =>
        let ok1 :=
          if b0 = 0xE0 then 0xA0 ≤ b1 && b1 ≤ 0xBF
          else if b0 = 0xED then 0x80 ≤ b1 && b1 ≤ 0x9F
          else isCont b1
        if ok1 && isCont b2 then
          (utf8DecodeChars rest3).map
            (fun cs =>
              Char.ofNat ((b0 - 0xE0) * 4096 + (b1 - 0x80) * 64 + (b2 - 0x80)) :: cs)
        else none
      | _ => none
    else if b0 ≤ 0xF4 then
      match rest with
      | b1 :: b2 :: b3 :: rest4 =>
        let ok1 :=
          if b0 = 0xF0 then 0x90 ≤ b1 && b1 ≤ 0xBF
          else if b0 = 0xF4 then 0x80 ≤ b1 && b1 ≤ 0x8F
          else isCont b1
        if ok1 && isCont b2 && isCont b3 then
          (utf8DecodeChars rest4).map
            (fun cs =>
              Char.ofNat ((b0 - 0xF0) * 262144 + (b1 - 0x80) * 4096
                + (b2 - 0x80) * 64 + (b3 - 0x80)) :: cs)
        else none
      | _ => none
    else none

/-- `str::from_utf8` as a `String`-valued partial decode. -/
def utf8Decode (bs : List Nat) : Option String :=
  (utf8DecodeChars bs).map (fun cs => ⟨cs⟩)

/-- `output_to_error` (src/exec.rs:159-166): build the `CommandFailed`
error for a non-zero exit, decoding stderr best-effort. -/
def output_to_error (cmd : String) (out : Output) : Error :=
  let text := (utf8Decode out.stderr).getD "[invalid string]"
  let msg := "Command " ++ cmd ++ " exited with status "
    ++ statusDisplay out.status ++ ": " ++ text
  Error.app .CommandFailed msg

/-- `non_zero_to_error` (src/exec.rs:151-157): exit status zero yields
the stdout bytes, anything else the `CommandFailed` error. -/
def non_zero_to_error (cmd : String) (out : Output) : Except Error (List Nat) :=
  if out.status = 0 then .ok out.stdout
  else .error (output_to_error cmd out)

/-- The command as `run` hands it to the OS: stdin attached to the null
device. -/
def setStdinNull (c : Cmd) : Cmd := { c with stdinNull := true }

/-- The `Result` of handing a fully-built command to the OS: a launch
failure is wrapped via `Error::from`, a completed child is classified
by `non_zero_to_error`. -/
def stepRes (env : Env) (c : Cmd) (name : String) : Except Error (List Nat) :=
  match env.exec c with
  | .launchFail msg => .error (Error.fromIo msg)
  | .ran out => non_zero_to_error name out

/-- `run` (src/exec.rs:144-149): null stdin, spawn and wait, map a
launch failure into `Error`, classify the exit status. -/
def run (env : Env) (c : Cmd) (name : String) : Step (List Nat) :=
  ([setStdinNull c], stepRes env (setStdinNull c) name)

/-- `github_url` (src/exec.rs:94-96). -/
def github_url (project : String) : String :=
  "https://github.com/" ++ project ++ ".git"

/-- `git_clone` (src/exec.rs:84-92): requires the destination path to
be valid UTF-8 (it is passed as an argument), else `InvalidPath`. -/
def git_clone (env : Env) (git : String) (path : RPath) (project : String) :
    Step (List Nat) :=
  match path.toStr with
  | none => ([], .error (Error.app .InvalidPath "Invalid project path"))
  | some path_s =>
    run env ⟨git, ["clone", github_url project, path_s], none, false⟩ "git clone"

/-- `git_checkout` (src/exec.rs:98-105). -/
def git_checkout (env : Env) (git : String) (path : RPath) (branch : String) :
    Step (List Nat) :=
  run env ⟨git, ["checkout", branch], some path, false⟩ "git checkout"

/-- `git_remote_update` (src/exec.rs:111-118). -/
def git_remote_update (env : Env) (git : String) (path : RPath) : Step (List Nat) :=
  run env ⟨git, ["remote", "update"], some path, false⟩ "git remote update"

/-- `git_pull` (src/exec.rs:120-123). -/
def git_pull (env : Env) (git : String) (path : RPath) : Step (List Nat) :=
  run env ⟨git, ["pull"], some path, false⟩ "git pull"

/-- `git_remote_changed` (src/exec.rs:125-137): resolve the local tip
and the upstream tip and compare the raw captured stdout bytes. -/
def git_remote_changed (env : Env) (git : String) (path : RPath) : Step Bool :=
  bindStep (run env ⟨git, ["rev-parse", "@"], some path, false⟩ "git rev-parse")
    fun loc =>
  bindStep (run env ⟨git, ["rev-parse", "@\x7bu\x7d"], some path, false⟩ "git rev-parse")
    fun remote =>
  ([], .ok (loc != remote))

/-- `run_from_str` (src/exec.rs:139-142): the configured command run as
the program itself, no arguments, in the project directory. -/
def run_from_str (env : Env) (command : String) (path : RPath) : Step (List Nat) :=
  run env ⟨command, [], some path, false⟩ command

/-- A configuration entry (`Project` in the missing `conf.rs`; fields
as used by src/exec.rs and described in spec §3). -/
structure Project where
  id : String
  repo : String
  branch : String
  command : String
deriving DecidableEq, Repr

/-- `update_repo` free function (src/exec.rs:68-82): the two-state
synchronization machine. -/
def update_repo (env : Env) (git : String) (path : RPath) (project : Project) :
    Step Bool :=
  if env.pathExists path then
    bindStep (git_checkout env git path project.branch) fun _ =>
    bindStep (git_remote_update env git path) fun _ =>
    bindStep (git_remote_changed env git path) fun has_changed =>
    bindStep (git_pull env git path) fun _ =>
    ([], .ok has_changed)
  else
    bindStep (git_clone env git path project.repo) fun _ =>
    bindStep (git_checkout env git path project.branch) fun _ =>
    ([], .ok true)

/-- `update_project` (src/exec.rs:52-66): synchronize, then run the
post-update command only when the synchronization reported a change. -/
def update_project (env : Env) (location git : String) (project : Project) :
    Step Unit :=
  let path := RPath.utf8 (pathJoin location project.id)
  bindStep (update_repo env git path project) fun has_changed =>
  if has_changed then
    bindStep (run_from_str env project.command path) fun _ => ([], .ok ())
  else ([], .ok ())

/-- Modelled from the spec: the configuration snapshot of the missing
`conf.rs` module — base `location`, the git binary `gitpath`, and the
project registry as an association list keyed by project id (§3:
"mapping from project id to Project, keys unique"). -/
structure Conf where
  location : String
  gitpath : String
  projects : List (String × Project)

/-- Modelled from the spec: `Conf::get_project`, lookup of a queued
identifier in the project registry (§3, §6). -/
def Conf.get_project (conf : Conf) (repo : String) : Option Project :=
  (conf.projects.find? (fun p => p.1 = repo)).map Prod.snd

/-- `Executor::get_project` composed with `Executor::update_repo`
(src/exec.rs:40-49): resolve the identifier, `InvalidRepository` when
no project matches, else run the update. -/
def Executor.update_repo (env : Env) (conf : Conf) (repo : String) : Step Unit :=
  match Conf.get_project conf repo with
  | none => ([], .error (Error.app .InvalidRepository "No repository found"))
  | some project => update_project env conf.location conf.gitpath project

/-- `Executor::run` (src/exec.rs:33-38): one queue item; a failure is
logged, never propagated (observable as the returned step). -/
def Executor.runItem (env : Env) (conf : Conf) (repo : String) : Step Unit :=
  Executor.update_repo env conf repo

/-- `Executor::start` (src/exec.rs:24-31) restricted to a finite prefix
of received identifiers: each item is processed in order and the loop
continues regardless of the item's outcome. -/
def Executor.processQueue (env : Env) (conf : Conf) (repos : List String) :
    List (Step Unit) :=
  repos.map (Executor.runItem env conf)

/-! ## Named command shapes

The exact commands the pipeline hands to the operating system (all with
stdin on the null device, as `run` sets it). -/

/-- `git checkout <branch>` in the project directory. -/
def checkoutCmd (git : String) (path : RPath) (branch : String) : Cmd :=
  ⟨git, ["checkout", branch], some path, true⟩

/-- `git remote update` in the project directory. -/
def remoteUpdateCmd (git : String) (path : RPath) : Cmd :=
  ⟨git, ["remote", "update"], some path, true⟩

/-- `git rev-parse @` in the project directory (local tip). -/
def revParseLocalCmd (git : String) (path : RPath) : Cmd :=
  ⟨git, ["rev-parse", "@"], some path, true⟩

/-- `git rev-parse` on the upstream tracking reference, in the project
directory. -/
def revParseUpstreamCmd (git : String) (path : RPath) : Cmd :=
  ⟨git, ["rev-parse", "@\x7bu\x7d"], some path, true⟩

/-- `git pull` in the project directory. -/
def pullCmd (git : String) (path : RPath) : Cmd :=
  ⟨git, ["pull"], some path, true⟩

/-- `git clone <url> <dest>` with inherited working directory. -/
def cloneCmd (git : String) (repo : String) (dest : String) : Cmd :=
  ⟨git, ["clone", github_url repo, dest], none, true⟩

/-- The post-update command: the configured string as the program, no
arguments, project directory as working directory. -/
def postCmd (command : String) (path : RPath) : Cmd :=
  ⟨command, [], some path, true⟩

/-- The deterministic working directory of a project,
`Path::new(location).join(&project.id)` (src/exec.rs:53-54). -/
def projPath (location : String) (project : Project) : RPath :=
  RPath.utf8 (pathJoin location project.id)

/-- The reason of an application-level error, `none` for a wrapped I/O
failure. -/
def Error.reason? : Error → Option Reason
  | .app r _ => some r
  | .fromIo _ => none

/-! ## Concrete worlds used by the witnesses -/

/-- A world where every subprocess succeeds, both rev-parse invocations
print the same tip, and the working directory exists. -/
def wEnvPresent : Env :=
  { exec := fun c =>
      if c.args = ["rev-parse", "@"] then .ran ⟨0, [97], []⟩
      else if c.args = ["rev-parse", "@\x7bu\x7d"] then .ran ⟨0, [97], []⟩
      else .ran ⟨0, [], []⟩,
    pathExists := fun _ => true }

/-- A world where every subprocess succeeds, the rev-parse invocations
print different tips, and the working directory exists. -/
def wEnvDiverged : Env :=
  { exec := fun c =>
      if c.args = ["rev-parse", "@"] then .ran ⟨0, [97], []⟩
      else if c.args = ["rev-parse", "@\x7bu\x7d"] then .ran ⟨0, [98], []⟩
      else .ran ⟨0, [], []⟩,
    pathExists := fun _ => true }

/-- A world where every subprocess succeeds and no working directory
exists yet. -/
def wEnvAbsent : Env :=
  { exec := fun _ => .ran ⟨0, [], []⟩,
    pathExists := fun _ => false }

/-- A world with diverged tips where the post-update command exits with
status 1 and stderr `bad`. -/
def wEnvDeployFail : Env :=
  { exec := fun c =>
      if c.args = ["rev-parse", "@"] then .ran ⟨0, [97], []⟩
      else if c.args = ["rev-parse", "@\x7bu\x7d"] then .ran ⟨0, [98], []⟩
      else if c.program = "./deploy.sh" then .ran ⟨1, [], [98, 97, 100]⟩
      else .ran ⟨0, [], []⟩,
    pathExists := fun _ => true }

/-- A world where the checkout step exits with status 1 and stderr
`b`, everything else succeeding. -/
def wEnvCheckoutFail : Env :=
  { exec := fun c =>
      if c.args = ["checkout", "main"] then .ran ⟨1, [], [98]⟩
      else .ran ⟨0, [], []⟩,
    pathExists := fun _ => true }

/-- A world where resolving the local tip exits with status 128 and
stderr `no`, everything else succeeding. -/
def wEnvRevFail : Env :=
  { exec := fun c =>
      if c.args = ["rev-parse", "@"] then .ran ⟨128, [], [110, 111]⟩
      else .ran ⟨0, [], []⟩,
    pathExists := fun _ => true }

/-- The example project of the spec. -/
def wProject : Project := ⟨"svc", "acme/svc", "main", "./deploy.sh"⟩

/-- The example project's working directory. -/
def wPath : RPath := .utf8 "/srv/repos/svc"

/-! ## Unfolding lemmas for the atomic steps -/

theorem git_checkout_eq (env : Env) (git : String) (path : RPath) (branch : String) :
    git_checkout env git path branch =
      ([checkoutCmd git path branch],
        stepRes env (checkoutCmd git path branch) "git checkout") := rfl

theorem git_remote_update_eq (env : Env) (git : String) (path : RPath) :
    git_remote_update env git path =
      ([remoteUpdateCmd git path],
        stepRes env (remoteUpdateCmd git path) "git remote update") := rfl

theorem git_pull_eq (env : Env) (git : String) (path : RPath) :
    git_pull env git path =
      ([pullCmd git path], stepRes env (pullCmd git path) "git pull") := rfl

theorem git_remote_changed_eq (env : Env) (git : String) (path : RPath) :
    git_remote_changed env git path =
      bindStep ([revParseLocalCmd git path],
          stepRes env (revParseLocalCmd git path) "git rev-parse") (fun loc =>
        bindStep ([revParseUpstreamCmd git path],
            stepRes env (revParseUpstreamCmd git path) "git rev-parse") (fun remote =>
          ([], .ok (loc != remote)))) := rfl

theorem git_clone_utf8_eq (env : Env) (git : String) (s : String) (repo : String) :
    git_clone env git (.utf8 s) repo =
      ([cloneCmd git repo s], stepRes env (cloneCmd git repo s) "git clone") := rfl

theorem git_clone_nonUtf8_eq (env : Env) (git : String) (bs : List Nat) (repo : String) :
    git_clone env git (.nonUtf8 bs) repo =
      ([], .error (Error.app .InvalidPath "Invalid project path")) := rfl

theorem run_from_str_eq (env : Env) (command : String) (path : RPath) :
    run_from_str env command path =
      ([postCmd command path], stepRes env (postCmd command path) command) := rfl

theorem update_project_eq (env : Env) (location git : String) (project : Project) :
    update_project env location git project =
      bindStep (update_repo env git (projPath location project) project)
        (fun has_changed =>
          if has_changed then
            bindStep (run_from_str env project.command (projPath location project))
              (fun _ => ([], .ok ()))
          else ([], .ok ())) := rfl

/-! ## Sequencing lemmas -/

@[simp] theorem bindStep_error {α β : Type} (t : List Cmd) (e : Error)
    (f : α → Step β) : bindStep (t, .error e) f = (t, .error e) := rfl

@[simp] theorem bindStep_ok {α β : Type} (t : List Cmd) (a : α) (f : α → Step β) :
    bindStep (t, .ok a) f = (t ++ (f a).1, (f a).2) := by
  rcases hfa : f a with ⟨t2, r2⟩
  simp [bindStep, hfa]

/-- A property of every command in a trace survives sequencing. -/
theorem forall_mem_bindStep {α β : Type} {P : Cmd → Prop} {x : Step α}
    {f : α → Step β}
    (hx : ∀ c ∈ x.1, P c) (hf : ∀ a, ∀ c ∈ (f a).1, P c) :
    ∀ c ∈ (bindStep x f).1, P c := by
  rcases x with ⟨t, r⟩
  cases r with
  | error e => simpa [bindStep] using hx
  | ok a =>
    rcases hfa : f a with ⟨t2, r2⟩
    intro c hc
    rcases List.mem_append.mp (by simpa [bindStep, hfa] using hc) with h | h
    · exact hx c h
    · exact hf a c (by simp [hfa, h])

/-- A property of every possible error survives sequencing. -/
theorem forall_error_bindStep {α β : Type} {P : Error → Prop} {x : Step α}
    {f : α → Step β}
    (hx : ∀ e, x.2 = .error e → P e) (hf : ∀ a e, (f a).2 = .error e → P e) :
    ∀ e, (bindStep x f).2 = .error e → P e := by
  rcases x with ⟨t, r⟩
  cases r with
  | error e' => intro e he; exact hx e (by simpa [bindStep] using he)
  | ok a =>
    rcases hfa : f a with ⟨t2, r2⟩
    intro e he
    exact hf a e (by simp [hfa]; simpa [bindStep, hfa] using he)

/-- A subprocess invocation can only fail with a wrapped launch error or
`CommandFailed`, never with `InvalidPath` or `InvalidRepository`. -/
theorem stepRes_error_reason (env : Env) (c : Cmd) (name : String) (e : Error)
    (h : stepRes env c name = .error e) :
    e.reason? = none ∨ e.reason? = some .CommandFailed := by
  unfold stepRes at h
  cases hx : env.exec c with
  | launchFail msg =>
    rw [hx] at h
    cases h
    left; rfl
  | ran out =>
    rw [hx] at h
    unfold non_zero_to_error at h
    by_cases hs : out.status = 0
    · simp [hs] at h
    · simp [hs, output_to_error] at h
      right; rw [← h]; rfl

/-- A subprocess invocation never fails with `InvalidPath`. -/
theorem stepRes_not_invalid_path (env : Env) (c : Cmd) (name : String) (e : Error)
    (h : stepRes env c name = .error e) : e.reason? ≠ some .InvalidPath := by
  rcases stepRes_error_reason env c name e h with h' | h' <;> simp [h']

/-- Every command invoked by `update_repo` is a git step with a
non-empty argument list (so it is never the argument-less post-update
command). -/
theorem update_repo_trace_args_ne_nil (env : Env) (git : String) (path : RPath)
    (project : Project) :
    ∀ c ∈ (update_repo env git path project).1, c.args ≠ [] := by
  unfold update_repo
  split
  · apply forall_mem_bindStep
    · rw [git_checkout_eq]
      intro c hc
      rw [List.mem_singleton.mp hc]
      simp [checkoutCmd]
    · intro _
      apply forall_mem_bindStep
      · rw [git_remote_update_eq]
        intro c hc
        rw [List.mem_singleton.mp hc]
        simp [remoteUpdateCmd]
      · intro _
        apply forall_mem_bindStep
        · rw [git_remote_changed_eq]
          apply forall_mem_bindStep
          · intro c hc
            rw [List.mem_singleton.mp hc]
            simp [revParseLocalCmd]
          · intro _
            apply forall_mem_bindStep
            · intro c hc
              rw [List.mem_singleton.mp hc]
              simp [revParseUpstreamCmd]
            · intro _ c hc
              simp at hc
        · intro _
          apply forall_mem_bindStep
          · rw [git_pull_eq]
            intro c hc
            rw [List.mem_singleton.mp hc]
            simp [pullCmd]
          · intro _ c hc
            simp at hc
  · apply forall_mem_bindStep
    · intro c hc
      cases path with
      | utf8 s =>
        rw [git_clone_utf8_eq] at hc
        rw [List.mem_singleton.mp hc]
        simp [cloneCmd]
      | nonUtf8 bs =>
        rw [git_clone_nonUtf8_eq] at hc
        simp at hc
    · intro _
      apply forall_mem_bindStep
      · rw [git_checkout_eq]
        intro c hc
        rw [List.mem_singleton.mp hc]
        simp [checkoutCmd]
      · intro _ c hc
        simp at hc

/-! ## Claims -/

/-- Claim C1: on an existing working directory, one update invokes
exactly checkout of the tracked branch, remote update, rev-parse of the
local tip, rev-parse of the upstream tip, then pull — in this order;
the pull is invoked even when the two tips agree, and the returned
`changed` flag equals the comparison of the two rev-parse outputs
captured before the pull. -/
theorem update_repo_present_order
    (env : Env) (git : String) (path : RPath) (project : Project)
    (o1 o2 l r op : List Nat)
    (hex : env.pathExists path = true)
    (h1 : stepRes env (checkoutCmd git path project.branch) "git checkout" = .ok o1)
    (h2 : stepRes env (remoteUpdateCmd git path) "git remote update" = .ok o2)
    (h3 : stepRes env (revParseLocalCmd git path) "git rev-parse" = .ok l)
    (h4 : stepRes env (revParseUpstreamCmd git path) "git rev-parse" = .ok r)
    (h5 : stepRes env (pullCmd git path) "git pull" = .ok op) :
    update_repo env git path project =
      ([checkoutCmd git path project.branch, remoteUpdateCmd git path,
        revParseLocalCmd git path, revParseUpstreamCmd git path,
        pullCmd git path], .ok (l != r)) := by
  simp [update_repo, hex, git_checkout_eq, git_remote_update_eq,
    git_remote_changed_eq, git_pull_eq, h1, h2, h3, h4, h5]

/-- Witness for C1: in a world with equal tips, the five git steps run
in order — the pull included, although no divergence was found — and
`changed` is `false`. -/
theorem update_repo_present_order_witness :
    update_repo wEnvPresent "git" wPath wProject =
      ([checkoutCmd "git" wPath "main", remoteUpdateCmd "git" wPath,
        revParseLocalCmd "git" wPath, revParseUpstreamCmd "git" wPath,
        pullCmd "git" wPath], .ok false) :=
  update_repo_present_order wEnvPresent "git" wPath wProject
    [] [] [97] [97] [] rfl rfl rfl rfl rfl rfl

/-- Claim C2: when the working directory does not exist, one update
invokes exactly clone then checkout of the tracked branch — no
rev-parse comparison is invoked — and reports `changed = true`
unconditionally. -/
theorem update_repo_absent_fresh_clone
    (env : Env) (git s : String) (project : Project) (oc och : List Nat)
    (hex : env.pathExists (.utf8 s) = false)
    (h1 : stepRes env (cloneCmd git project.repo s) "git clone" = .ok oc)
    (h2 : stepRes env (checkoutCmd git (.utf8 s) project.branch) "git checkout" = .ok och) :
    update_repo env git (.utf8 s) project =
      ([cloneCmd git project.repo s, checkoutCmd git (.utf8 s) project.branch],
        .ok true) := by
  simp [update_repo, hex, git_clone_utf8_eq, git_checkout_eq, h1, h2]

/-- Witness for C2: a fresh run clones and checks out, nothing else,
and reports a change. -/
theorem update_repo_absent_fresh_clone_witness :
    update_repo wEnvAbsent "git" (.utf8 "/srv/repos/svc") wProject =
      ([cloneCmd "git" "acme/svc" "/srv/repos/svc",
        checkoutCmd "git" (.utf8 "/srv/repos/svc") "main"], .ok true) :=
  update_repo_absent_fresh_clone wEnvAbsent "git" "/srv/repos/svc" wProject
    [] [] rfl rfl rfl

/-- Claim C3: when the git synchronization succeeds and reports no
change, the post-update command is not invoked at all (the update's
trace is exactly the synchronization's trace, which never contains the
argument-less post-update command) and the update returns `Ok`. -/
theorem update_project_unchanged_skips_command
    (env : Env) (location git : String) (project : Project) (t : List Cmd)
    (h : update_repo env git (projPath location project) project = (t, .ok false)) :
    update_project env location git project = (t, .ok ()) ∧
      postCmd project.command (projPath location project) ∉ t := by
  constructor
  · rw [update_project_eq, h]
    simp
  · intro hmem
    have hargs := update_repo_trace_args_ne_nil env git (projPath location project) project
    rw [h] at hargs
    exact hargs _ hmem rfl

/-- Witness for C3: with equal tips, the update runs only the five git
steps, skips `./deploy.sh`, and returns `Ok`. -/
theorem update_project_unchanged_skips_command_witness :
    update_project wEnvPresent "/srv/repos" "git" wProject =
      ([checkoutCmd "git" wPath "main", remoteUpdateCmd "git" wPath,
        revParseLocalCmd "git" wPath, revParseUpstreamCmd "git" wPath,
        pullCmd "git" wPath], .ok ()) ∧
      postCmd "./deploy.sh" wPath ∉
        [checkoutCmd "git" wPath "main", remoteUpdateCmd "git" wPath,
          revParseLocalCmd "git" wPath, revParseUpstreamCmd "git" wPath,
          pullCmd "git" wPath] :=
  update_project_unchanged_skips_command wEnvPresent "/srv/repos" "git" wProject
    [checkoutCmd "git" wPath "main", remoteUpdateCmd "git" wPath,
      revParseLocalCmd "git" wPath, revParseUpstreamCmd "git" wPath,
      pullCmd "git" wPath] (by rfl)

/-- Claim C4: a subprocess that exits with status zero yields `Ok` with
the captured stdout bytes; a non-zero exit yields a `CommandFailed`
error whose message carries the command's display name, the exit
status, and stderr decoded as UTF-8, with an undecodable stream
replaced by the placeholder rather than failing differently. -/
theorem run_classifies_exit
    (env : Env) (c : Cmd) (name : String) (out : Output)
    (h : env.exec (setStdinNull c) = .ran out) :
    run env c name =
      ([setStdinNull c],
        if out.status = 0 then .ok out.stdout
        else .error (Error.app .CommandFailed
          ("Command " ++ name ++ " exited with status "
            ++ statusDisplay out.status ++ ": "
            ++ ((utf8Decode out.stderr).getD "[invalid string]")))) := by
  unfold run stepRes
  rw [h]
  unfold non_zero_to_error output_to_error
  by_cases hs : out.status = 0 <;> simp [hs]

/-- Witness for C4: a child exiting with status 1 and an undecodable
stderr stream (the lone byte 255) is classified as `CommandFailed` with
the placeholder text. -/
theorem run_classifies_exit_witness :
    run { exec := fun _ => .ran ⟨1, [], [255]⟩, pathExists := fun _ => true }
        ⟨"git", ["pull"], none, false⟩ "git pull" =
      ([⟨"git", ["pull"], none, true⟩],
        .error (Error.app .CommandFailed
          "Command git pull exited with status exit status: 1: [invalid string]")) := by
  have := run_classifies_exit
    { exec := fun _ => .ran ⟨1, [], [255]⟩, pathExists := fun _ => true }
    ⟨"git", ["pull"], none, false⟩ "git pull" ⟨1, [], [255]⟩ rfl
  simpa using this

/-- Claim C6: a queued identifier matching no configured project
invokes no subprocess (empty trace), yields the `InvalidRepository`
condition, and the executor still processes the rest of the queue. -/
theorem missing_project_invalid_repository
    (env : Env) (conf : Conf) (repo : String) (rest : List String)
    (h : Conf.get_project conf repo = none) :
    Executor.runItem env conf repo =
      ([], .error (Error.app .InvalidRepository "No repository found")) ∧
    Executor.processQueue env conf (repo :: rest) =
      ([], .error (Error.app .InvalidRepository "No repository found"))
        :: Executor.processQueue env conf rest := by
  constructor
  · simp [Executor.runItem, Executor.update_repo, h]
  · simp [Executor.processQueue, Executor.runItem, Executor.update_repo, h]

/-- Witness for C6: an unknown identifier against an empty registry is
consumed with no subprocess and the next item is still processed. -/
theorem missing_project_invalid_repository_witness :
    Executor.runItem wEnvPresent ⟨"/srv/repos", "git", []⟩ "ghost" =
      ([], .error (Error.app .InvalidRepository "No repository found")) ∧
    Executor.processQueue wEnvPresent ⟨"/srv/repos", "git", []⟩ ["ghost", "svc"] =
      ([], .error (Error.app .InvalidRepository "No repository found"))
        :: Executor.processQueue wEnvPresent ⟨"/srv/repos", "git", []⟩ ["svc"] :=
  missing_project_invalid_repository wEnvPresent ⟨"/srv/repos", "git", []⟩
    "ghost" ["svc"] rfl

/-- Claim C7: when the synchronization reports `changed = true`, the
configured post-update command is invoked exactly once, as the program
itself with no arguments, stdin on the null device, and working
directory equal to the project path; a non-zero exit surfaces as the
`CommandFailed` error of the update (and the single occurrence in the
trace shows it is never retried), while a zero exit yields `Ok`. -/
theorem changed_runs_command_once
    (env : Env) (location git : String) (project : Project) (t : List Cmd)
    (h : update_repo env git (projPath location project) project = (t, .ok true)) :
    (update_project env location git project).1 =
      t ++ [postCmd project.command (projPath location project)] ∧
    (t ++ [postCmd project.command (projPath location project)]).count
      (postCmd project.command (projPath location project)) = 1 ∧
    (∀ out : Output,
      env.exec (postCmd project.command (projPath location project)) = .ran out →
      out.status ≠ 0 →
      (update_project env location git project).2 =
        .error (Error.app .CommandFailed
          ("Command " ++ project.command ++ " exited with status "
            ++ statusDisplay out.status ++ ": "
            ++ ((utf8Decode out.stderr).getD "[invalid string]")))) ∧
    (∀ bs : List Nat,
      stepRes env (postCmd project.command (projPath location project))
        project.command = .ok bs →
      (update_project env location git project).2 = .ok ()) := by
  have htr : update_project env location git project =
      (t ++ [postCmd project.command (projPath location project)],
        (bindStep (run_from_str env project.command (projPath location project))
          (fun _ => ([], Except.ok ()))).2) := by
    rw [update_project_eq, h]
    cases hR : stepRes env (postCmd project.command (projPath location project))
        project.command <;>
      simp [run_from_str_eq, bindStep, hR]
  have hnotin : postCmd project.command (projPath location project) ∉ t := by
    intro hmem
    have hargs := update_repo_trace_args_ne_nil env git (projPath location project) project
    rw [h] at hargs
    exact hargs _ hmem rfl
  refine ⟨by rw [htr], ?_, ?_, ?_⟩
  · rw [List.count_append, List.count_eq_zero.mpr hnotin]
    simp
  · intro out hout hst
    rw [htr]
    simp [run_from_str_eq, bindStep, stepRes, hout, non_zero_to_error, hst,
      output_to_error]
  · intro bs hbs
    rw [htr]
    simp [run_from_str_eq, bindStep, hbs]

/-- Witness for C7: with diverged tips and a failing `./deploy.sh`
(status 1, stderr `bad`), the command appears exactly once at the end
of the trace and the update fails with the corresponding
`CommandFailed` error. -/
theorem changed_runs_command_once_witness :
    (update_project wEnvDeployFail "/srv/repos" "git" wProject).1 =
      [checkoutCmd "git" wPath "main", remoteUpdateCmd "git" wPath,
        revParseLocalCmd "git" wPath, revParseUpstreamCmd "git" wPath,
        pullCmd "git" wPath] ++ [postCmd "./deploy.sh" wPath] ∧
    ([checkoutCmd "git" wPath "main", remoteUpdateCmd "git" wPath,
        revParseLocalCmd "git" wPath, revParseUpstreamCmd "git" wPath,
        pullCmd "git" wPath] ++ [postCmd "./deploy.sh" wPath]).count
      (postCmd "./deploy.sh" wPath) = 1 ∧
    (update_project wEnvDeployFail "/srv/repos" "git" wProject).2 =
      .error (Error.app .CommandFailed
        "Command ./deploy.sh exited with status exit status: 1: bad") := by
  have H := changed_runs_command_once wEnvDeployFail "/srv/repos" "git" wProject
    [checkoutCmd "git" wPath "main", remoteUpdateCmd "git" wPath,
      revParseLocalCmd "git" wPath, revParseUpstreamCmd "git" wPath,
      pullCmd "git" wPath] (by rfl)
  refine ⟨H.1, H.2.1, ?_⟩
  have := H.2.2.1 ⟨1, [], [98, 97, 100]⟩ (by rfl) (by decide)
  simpa using this

/-- Claim C10: on an existing working directory, `changed` is the raw
byte inequality of the complete captured stdout of the two rev-parse
invocations — no trimming, decoding or parsing — and the update reports
`changed = true` exactly when the two stdout byte sequences differ. -/
theorem changed_is_stdout_inequality
    (env : Env) (git : String) (path : RPath) (project : Project)
    (o1 o2 l r op : List Nat)
    (hex : env.pathExists path = true)
    (h1 : stepRes env (checkoutCmd git path project.branch) "git checkout" = .ok o1)
    (h2 : stepRes env (remoteUpdateCmd git path) "git remote update" = .ok o2)
    (h3 : stepRes env (revParseLocalCmd git path) "git rev-parse" = .ok l)
    (h4 : stepRes env (revParseUpstreamCmd git path) "git rev-parse" = .ok r)
    (h5 : stepRes env (pullCmd git path) "git pull" = .ok op) :
    git_remote_changed env git path =
      ([revParseLocalCmd git path, revParseUpstreamCmd git path], .ok (l != r)) ∧
    ((update_repo env git path project).2 = .ok true ↔ l ≠ r) := by
  have hrc : git_remote_changed env git path =
      ([revParseLocalCmd git path, revParseUpstreamCmd git path], .ok (l != r)) := by
    simp [git_remote_changed_eq, h3, h4]
  refine ⟨hrc, ?_⟩
  simp [update_repo, hex, git_checkout_eq, git_remote_update_eq, hrc,
    git_pull_eq, h1, h2, h5, bne_iff_ne]

/-- Witness for C10: with local stdout `[97]` and upstream stdout
`[98]`, the comparison yields `true` and the update reports a change. -/
theorem changed_is_stdout_inequality_witness :
    git_remote_changed wEnvDiverged "git" wPath =
      ([revParseLocalCmd "git" wPath, revParseUpstreamCmd "git" wPath],
        .ok true) ∧
    ((update_repo wEnvDiverged "git" wPath wProject).2 = .ok true ↔
      ([97] : List Nat) ≠ [98]) :=
  changed_is_stdout_inequality wEnvDiverged "git" wPath wProject
    [] [] [97] [98] [] rfl rfl rfl rfl rfl rfl

/-- Claim C8: on a fresh run the first invoked command is git clone
with remote URL exactly `https://github.com/<repo>.git` and destination
exactly `location` joined with the project id, and every later command
of the update runs with that same joined path as its working
directory. -/
theorem fresh_clone_url_and_destination
    (env : Env) (location git : String) (project : Project)
    (hex : env.pathExists (projPath location project) = false) :
    (update_project env location git project).1.head? =
      some ⟨git, ["clone", "https://github.com/" ++ project.repo ++ ".git",
        pathJoin location project.id], none, true⟩ ∧
    ∀ c ∈ (update_project env location git project).1.tail,
      c.cwd = some (RPath.utf8 (pathJoin location project.id)) := by
  rw [update_project_eq]
  have hrepo : update_repo env git (projPath location project) project =
      bindStep (git_clone env git (projPath location project) project.repo)
        (fun _ =>
          bindStep (git_checkout env git (projPath location project) project.branch)
            (fun _ => ([], .ok true))) := by
    unfold update_repo
    rw [hex]
    simp
  rw [hrepo]
  have hclone : git_clone env git (projPath location project) project.repo =
      ([cloneCmd git project.repo (pathJoin location project.id)],
        stepRes env (cloneCmd git project.repo (pathJoin location project.id))
          "git clone") := rfl
  rw [hclone, git_checkout_eq, run_from_str_eq]
  cases hc : stepRes env (cloneCmd git project.repo (pathJoin location project.id))
      "git clone" with
  | error e =>
    simp [bindStep, cloneCmd, github_url]
  | ok oc =>
    cases hck : stepRes env
        (checkoutCmd git (projPath location project) project.branch)
        "git checkout" with
    | error e =>
      simp [bindStep, cloneCmd, github_url, checkoutCmd, projPath]
    | ok och =>
      cases hpc : stepRes env
          (postCmd project.command (projPath location project)) project.command with
      | error e =>
        simp [bindStep, cloneCmd, github_url, checkoutCmd, postCmd, projPath]
      | ok obs =>
        simp [bindStep, cloneCmd, github_url, checkoutCmd, postCmd, projPath]

/-- Witness for C8: the spec's example project clones
`https://github.com/acme/svc.git` into `/srv/repos/svc`, and the later
checkout runs inside that directory. -/
theorem fresh_clone_url_and_destination_witness :
    (update_project wEnvAbsent "/srv/repos" "git" wProject).1.head? =
      some ⟨"git", ["clone", "https://github.com/acme/svc.git", "/srv/repos/svc"],
        none, true⟩ ∧
    (checkoutCmd "git" (.utf8 "/srv/repos/svc") "main").cwd =
      some (RPath.utf8 "/srv/repos/svc") :=
  ⟨(fresh_clone_url_and_destination wEnvAbsent "/srv/repos" "git" wProject
      (by rfl)).1,
    (fresh_clone_url_and_destination wEnvAbsent "/srv/repos" "git" wProject
      (by rfl)).2 (checkoutCmd "git" (.utf8 "/srv/repos/svc") "main") (by decide)⟩

/-- Claim C9: when the working directory exists, no step of the update
can ever fail with `InvalidPath` (every error is a wrapped launch
failure or `CommandFailed`); and the only step able to produce
`InvalidPath` is the clone, exactly when the destination path is not
valid UTF-8. -/
theorem present_update_never_invalid_path
    (env : Env) (location git : String) (project : Project) :
    (env.pathExists (projPath location project) = true →
      ∀ e, (update_project env location git project).2 = .error e →
        e.reason? ≠ some .InvalidPath) ∧
    (∀ g2 : String, ∀ path : RPath, ∀ repo2 : String, ∀ e : Error,
      (git_clone env g2 path repo2).2 = .error e →
      e.reason? = some .InvalidPath → path.toStr = none) := by
  constructor
  · intro hex
    have hrepo : ∀ e,
        (update_repo env git (projPath location project) project).2 = .error e →
        e.reason? ≠ some .InvalidPath := by
      unfold update_repo
      rw [hex]
      simp only [if_true]
      apply forall_error_bindStep
      · rw [git_checkout_eq]
        exact fun e he => stepRes_not_invalid_path _ _ _ e he
      · intro _
        apply forall_error_bindStep
        · rw [git_remote_update_eq]
          exact fun e he => stepRes_not_invalid_path _ _ _ e he
        · intro _
          apply forall_error_bindStep
          · rw [git_remote_changed_eq]
            apply forall_error_bindStep
            · exact fun e he => stepRes_not_invalid_path _ _ _ e he
            · intro _
              apply forall_error_bindStep
              · exact fun e he => stepRes_not_invalid_path _ _ _ e he
              · intro _ e he
                simp at he
          · intro _
            apply forall_error_bindStep
            · rw [git_pull_eq]
              exact fun e he => stepRes_not_invalid_path _ _ _ e he
            · intro _ e he
              simp at he
    intro e he
    rw [update_project_eq] at he
    refine forall_error_bindStep hrepo ?_ e he
    intro a e' he'
    cases a with
    | false => simp at he'
    | true =>
      rw [run_from_str_eq, if_pos rfl] at he'
      refine forall_error_bindStep
        (fun e'' he'' => stepRes_not_invalid_path _ _ _ e'' he'') ?_ e' he'
      intro _ e'' he''
      simp at he''
  · intro g2 path repo2 e he hr
    cases path with
    | nonUtf8 bs => rfl
    | utf8 s =>
      rw [git_clone_utf8_eq] at he
      exact absurd hr (stepRes_not_invalid_path _ _ _ e he)

/-- Witness for C9: a failing checkout in a present working directory
yields a `CommandFailed` (not `InvalidPath`) error, and a clone handed
a non-UTF-8 destination (the lone byte 255) is the one step that
reports `InvalidPath`. -/
theorem present_update_never_invalid_path_witness :
    (Error.app Reason.CommandFailed
      "Command git checkout exited with status exit status: 1: b").reason? ≠
        some Reason.InvalidPath ∧
    (RPath.nonUtf8 [255]).toStr = none :=
  ⟨(present_update_never_invalid_path wEnvCheckoutFail "/srv/repos" "git"
      wProject).1 (by rfl)
      (Error.app Reason.CommandFailed
        "Command git checkout exited with status exit status: 1: b") (by rfl),
    (present_update_never_invalid_path wEnvCheckoutFail "/srv/repos" "git"
      wProject).2 "git" (RPath.nonUtf8 [255]) "acme/svc"
      (Error.app Reason.InvalidPath "Invalid project path") (by rfl) (by rfl)⟩

/-- Claim C5: any git step failing short-circuits the update — the
trace ends at the failing command, every later git step and the
post-update command are skipped, and the failure is returned to the
caller.  One conjunct per failure point, on both the existing-directory
path (checkout, remote update, the two rev-parse resolutions, pull) and
the fresh-clone path (clone, checkout). -/
theorem update_short_circuits_on_failure
    (env : Env) (location git : String) (project : Project) :
    (env.pathExists (projPath location project) = true →
      (∀ e, stepRes env (checkoutCmd git (projPath location project) project.branch)
          "git checkout" = .error e →
        update_project env location git project =
          ([checkoutCmd git (projPath location project) project.branch], .error e)) ∧
      (∀ o1 e,
        stepRes env (checkoutCmd git (projPath location project) project.branch)
          "git checkout" = .ok o1 →
        stepRes env (remoteUpdateCmd git (projPath location project))
          "git remote update" = .error e →
        update_project env location git project =
          ([checkoutCmd git (projPath location project) project.branch,
            remoteUpdateCmd git (projPath location project)], .error e)) ∧
      (∀ o1 o2 e,
        stepRes env (checkoutCmd git (projPath location project) project.branch)
          "git checkout" = .ok o1 →
        stepRes env (remoteUpdateCmd git (projPath location project))
          "git remote update" = .ok o2 →
        stepRes env (revParseLocalCmd git (projPath location project))
          "git rev-parse" = .error e →
        update_project env location git project =
          ([checkoutCmd git (projPath location project) project.branch,
            remoteUpdateCmd git (projPath location project),
            revParseLocalCmd git (projPath location project)], .error e)) ∧
      (∀ o1 o2 l e,
        stepRes env (checkoutCmd git (projPath location project) project.branch)
          "git checkout" = .ok o1 →
        stepRes env (remoteUpdateCmd git (projPath location project))
          "git remote update" = .ok o2 →
        stepRes env (revParseLocalCmd git (projPath location project))
          "git rev-parse" = .ok l →
        stepRes env (revParseUpstreamCmd git (projPath location project))
          "git rev-parse" = .error e →
        update_project env location git project =
          ([checkoutCmd git (projPath location project) project.branch,
            remoteUpdateCmd git (projPath location project),
            revParseLocalCmd git (projPath location project),
            revParseUpstreamCmd git (projPath location project)], .error e)) ∧
      (∀ o1 o2 l r e,
        stepRes env (checkoutCmd git (projPath location project) project.branch)
          "git checkout" = .ok o1 →
        stepRes env (remoteUpdateCmd git (projPath location project))
          "git remote update" = .ok o2 →
        stepRes env (revParseLocalCmd git (projPath location project))
          "git rev-parse" = .ok l →
        stepRes env (revParseUpstreamCmd git (projPath location project))
          "git rev-parse" = .ok r →
        stepRes env (pullCmd git (projPath location project)) "git pull" = .error e →
        update_project env location git project =
          ([checkoutCmd git (projPath location project) project.branch,
            remoteUpdateCmd git (projPath location project),
            revParseLocalCmd git (projPath location project),
            revParseUpstreamCmd git (projPath location project),
            pullCmd git (projPath location project)], .error e))) ∧
    (env.pathExists (projPath location project) = false →
      (∀ e, stepRes env (cloneCmd git project.repo (pathJoin location project.id))
          "git clone" = .error e →
        update_project env location git project =
          ([cloneCmd git project.repo (pathJoin location project.id)], .error e)) ∧
      (∀ oc e,
        stepRes env (cloneCmd git project.repo (pathJoin location project.id))
          "git clone" = .ok oc →
        stepRes env (checkoutCmd git (projPath location project) project.branch)
          "git checkout" = .error e →
        update_project env location git project =
          ([cloneCmd git project.repo (pathJoin location project.id),
            checkoutCmd git (projPath location project) project.branch],
            .error e))) := by
  have hclone : git_clone env git (projPath location project) project.repo =
      ([cloneCmd git project.repo (pathJoin location project.id)],
        stepRes env (cloneCmd git project.repo (pathJoin location project.id))
          "git clone") := rfl
  constructor
  · intro hex
    refine ⟨?_, ?_, ?_, ?_, ?_⟩
    · intro e h1
      rw [update_project_eq]
      simp [update_repo, hex, git_checkout_eq, git_remote_update_eq,
        git_remote_changed_eq, git_pull_eq, h1]
    · intro o1 e h1 h2
      rw [update_project_eq]
      simp [update_repo, hex, git_checkout_eq, git_remote_update_eq,
        git_remote_changed_eq, git_pull_eq, h1, h2]
    · intro o1 o2 e h1 h2 h3
      rw [update_project_eq]
      simp [update_repo, hex, git_checkout_eq, git_remote_update_eq,
        git_remote_changed_eq, git_pull_eq, h1, h2, h3]
    · intro o1 o2 l e h1 h2 h3 h4
      rw [update_project_eq]
      simp [update_repo, hex, git_checkout_eq, git_remote_update_eq,
        git_remote_changed_eq, git_pull_eq, h1, h2, h3, h4]
    · intro o1 o2 l r e h1 h2 h3 h4 h5
      rw [update_project_eq]
      simp [update_repo, hex, git_checkout_eq, git_remote_update_eq,
        git_remote_changed_eq, git_pull_eq, h1, h2, h3, h4, h5]
  · intro hex
    constructor
    · intro e h1
      rw [update_project_eq]
      simp [update_repo, hex, hclone, git_checkout_eq, h1]
    · intro oc e h1 h2
      rw [update_project_eq]
      simp [update_repo, hex, hclone, git_checkout_eq, h1, h2]

/-- Witness for C5: a failed resolution of the local tip (status 128,
stderr `no`) stops the update after the third git step — neither
rev-parse of the upstream tip, nor pull, nor `./deploy.sh` is invoked —
and the `CommandFailed` error is returned. -/
theorem update_short_circuits_on_failure_witness :
    update_project wEnvRevFail "/srv/repos" "git" wProject =
      ([checkoutCmd "git" wPath "main", remoteUpdateCmd "git" wPath,
        revParseLocalCmd "git" wPath],
        .error (Error.app Reason.CommandFailed
          "Command git rev-parse exited with status exit status: 128: no")) :=
  ((update_short_circuits_on_failure wEnvRevFail "/srv/repos" "git" wProject).1
    (by rfl)).2.2.1 [] []
    (Error.app Reason.CommandFailed
      "Command git rev-parse exited with status exit status: 128: no")
    (by rfl) (by rfl) (by rfl)

end Koukku
